import Mathlib

/-!
Verification of the 4bottle archive engine (lib4q `archive.coffee`,
`file_bottle.coffee`, and the `4unpack` CLI) against its specification.

The embedding follows the source files:
  * `file_bottle.coffee` — file-header field ids, `fileHeaderFromFilename`,
    `encodeFileHeader`, `decodeFileHeader`;
  * `archive.coffee` — `ArchiveWriter` (`archiveFiles`,
    `_makeFakeFolderHeader`, `_processFolder`, `foreachSerial`) and
    `ArchiveReader` (`scan`, `_scanFile`, `_scanFolder`, `_scanHashed`,
    `_scanCompressed`, `_skipBottle`);
  * `4unpack.js` — `processFile` and its overwrite policy.

JavaScript `undefined` / missing record fields are modelled as `Option.none`;
byte streams are `List Nat`; promise chaining is modelled as sequencing, so
the order of events in a trace is the order in which the corresponding
operations complete in the source.
-/

namespace FourBottle

/-! ## Header codec model (`file_bottle.coffee`)

The `Header` container class itself lives in `bottle_header.coffee`, which is
not part of the sources; `file_bottle.coffee` only uses its `addString`,
`addNumber`, `addBool` constructors and its ordered `fields` list, so a
`Header` is modelled as that ordered field list.  A `zint` field stores the
(possibly `undefined`, hence `Option`) number handed to `addNumber`. -/

namespace FIELDS

namespace STRINGS

def FILENAME : Nat := 0

def MIME_TYPE : Nat := 1

def POSIX_USERNAME : Nat := 2

def POSIX_GROUPNAME : Nat := 3

end STRINGS

namespace NUMBERS

def SIZE : Nat := 0

def POSIX_MODE : Nat := 1

def CREATED_NANOS : Nat := 2

def MODIFIED_NANOS : Nat := 3

def ACCESSED_NANOS : Nat := 4

end NUMBERS

namespace BOOLS

def IS_FOLDER : Nat := 0

end BOOLS

end FIELDS

/-- One typed header field: a string field (holding the value list), an
integer (`zint`) field, or a presence-only boolean field. -/
inductive Field where
  | str (id : Nat) (list : List String)
  | zint (id : Nat) (number : Option Nat)
  | bool (id : Nat)
deriving DecidableEq, Repr

/-- A header is its ordered list of fields (`bottle_header.Header`). -/
structure Header where
  fields : List Field
deriving DecidableEq, Repr

def Header.addString (m : Header) (id : Nat) (s : String) : Header :=
  ⟨m.fields ++ [.str id [s]]⟩

def Header.addNumber (m : Header) (id : Nat) (n : Option Nat) : Header :=
  ⟨m.fields ++ [.zint id n]⟩

def Header.addBool (m : Header) (id : Nat) : Header :=
  ⟨m.fields ++ [.bool id]⟩

/-- A file-metadata record as handed to `encodeFileHeader` (the mutated
`stats` object).  Absent JS properties are `none`. -/
structure Stats where
  filename : String
  size : Option Nat := none
  mode : Option Nat := none
  createdNanos : Option Nat := none
  modifiedNanos : Option Nat := none
  accessedNanos : Option Nat := none
  username : Option String := none
  groupname : Option String := none
  folder : Bool := false
deriving DecidableEq, Repr

/-- `encodeFileHeader` (`file_bottle.coffee` lines 46-59): fields are added
in source order; `mode`, the three timestamps, `username` and `groupname`
are guarded by presence checks, while the folder branch adds `IS_FOLDER`
and the non-folder branch adds `SIZE` with whatever `stats.size` holds. -/
def encodeFileHeader (stats : Stats) : Header :=
  let m : Header := ⟨[]⟩
  let m := m.addString FIELDS.STRINGS.FILENAME stats.filename
  let m := match stats.mode with
    | some _ => m.addNumber FIELDS.NUMBERS.POSIX_MODE stats.mode
    | none => m
  let m := match stats.createdNanos with
    | some _ => m.addNumber FIELDS.NUMBERS.CREATED_NANOS stats.createdNanos
    | none => m
  let m := match stats.modifiedNanos with
    | some _ => m.addNumber FIELDS.NUMBERS.MODIFIED_NANOS stats.modifiedNanos
    | none => m
  let m := match stats.accessedNanos with
    | some _ => m.addNumber FIELDS.NUMBERS.ACCESSED_NANOS stats.accessedNanos
    | none => m
  let m := if stats.folder then m.addBool FIELDS.BOOLS.IS_FOLDER
    else m.addNumber FIELDS.NUMBERS.SIZE stats.size
  let m := match stats.username with
    | some u => m.addString FIELDS.STRINGS.POSIX_USERNAME u
    | none => m
  let m := match stats.groupname with
    | some g => m.addString FIELDS.STRINGS.POSIX_GROUPNAME g
    | none => m
  m

/-- The record built by `decodeFileHeader`, starting from
`rv = (folder: false)` with every other property absent. -/
structure FileHeader where
  filename : Option String := none
  mimeType : Option String := none
  username : Option String := none
  groupname : Option String := none
  size : Option Nat := none
  mode : Option Nat := none
  createdNanos : Option Nat := none
  modifiedNanos : Option Nat := none
  accessedNanos : Option Nat := none
  folder : Bool := false
deriving DecidableEq, Repr

/-- One iteration of `decodeFileHeader`'s field loop: the `switch` on
`field.type` and `field.id`.  `field.list[0]` is `List.head?`. -/
def applyField (rv : FileHeader) (f : Field) : FileHeader :=
  match f with
  | .str id list =>
    if id = FIELDS.STRINGS.FILENAME then { rv with filename := list.head? }
    else if id = FIELDS.STRINGS.MIME_TYPE then { rv with mimeType := list.head? }
    else if id = FIELDS.STRINGS.POSIX_USERNAME then { rv with username := list.head? }
    else if id = FIELDS.STRINGS.POSIX_GROUPNAME then { rv with groupname := list.head? }
    else rv
  | .zint id n =>
    if id = FIELDS.NUMBERS.SIZE then { rv with size := n }
    else if id = FIELDS.NUMBERS.POSIX_MODE then { rv with mode := n }
    else if id = FIELDS.NUMBERS.CREATED_NANOS then { rv with createdNanos := n }
    else if id = FIELDS.NUMBERS.MODIFIED_NANOS then { rv with modifiedNanos := n }
    else if id = FIELDS.NUMBERS.ACCESSED_NANOS then { rv with accessedNanos := n }
    else rv
  | .bool id =>
    if id = FIELDS.BOOLS.IS_FOLDER then { rv with folder := true } else rv

/-- `decodeFileHeader` (`file_bottle.coffee` lines 61-81). -/
def decodeFileHeader (m : Header) : FileHeader :=
  m.fields.foldl applyField {}

/-- The raw result of the `fs.stat` collaborator, before
`fileHeaderFromFilename` massages it (times in milliseconds, as
`Date.getTime()` returns). -/
structure RawStats where
  mode : Nat
  size : Nat
  uid : Nat
  gid : Nat
  ctimeMillis : Nat
  mtimeMillis : Nat
  atimeMillis : Nat
  isDirectory : Bool
deriving DecidableEq, Repr

/-- `fileHeaderFromFilename` (`file_bottle.coffee` lines 25-44): masks the
posix mode with `0x1ff`, scales the timestamps by `10^6`, copies the
folder flag from `isDirectory()`, and resolves user/group names through the
`posix.getpwnam`/`posix.getgrnam` collaborators (`none` when the lookup
throws). -/
def fileHeaderFromFilename (filename : String) (st : RawStats)
    (getpwnam : Nat → Option String) (getgrnam : Nat → Option String) : Stats :=
  { filename := filename
    mode := some (st.mode &&& 0x1ff)
    size := some st.size
    createdNanos := some (st.ctimeMillis * 1000000)
    modifiedNanos := some (st.mtimeMillis * 1000000)
    accessedNanos := some (st.atimeMillis * 1000000)
    folder := st.isDirectory
    username := getpwnam st.uid
    groupname := getgrnam st.gid }

end FourBottle

namespace FourBottle

/-! ## Claims C2, C5, C10: the file header codec -/

/-- A folder record as `fs.stat` actually produces it: directories report a
size, `fileHeaderFromFilename` keeps it, and `encodeFileHeader`'s folder
branch drops it. -/
def folderWithSize : Stats :=
  { filename := "d", size := some 4096, folder := true }

/-- Claim C2, counterexample: a record with `folder = true` and a defined
size (as every directory stat record has) does not survive the
`decodeFileHeader`/`encodeFileHeader` round trip — the size is lost. -/
theorem decode_encode_drops_folder_size :
    (decodeFileHeader (encodeFileHeader folderWithSize)).size ≠ folderWithSize.size := by
  decide

/-- Claim C2 (amended): for every file-metadata record with a filename,
either folder=true or a defined size, and optional mode, timestamps,
username and groupname — provided a folder record carries no size (folder
sizes are never encoded) — decoding the encoded file header returns a
record whose filename, size, mode, timestamps, username, groupname and
folder flag equal those of the original record. -/
theorem decode_encode_fileHeader (stats : Stats)
    (hshape : stats.folder = true ∨ stats.size.isSome = true)
    (hfolder : stats.folder = true → stats.size = none) :
    (decodeFileHeader (encodeFileHeader stats)).filename = some stats.filename ∧
    (decodeFileHeader (encodeFileHeader stats)).size = stats.size ∧
    (decodeFileHeader (encodeFileHeader stats)).mode = stats.mode ∧
    (decodeFileHeader (encodeFileHeader stats)).createdNanos = stats.createdNanos ∧
    (decodeFileHeader (encodeFileHeader stats)).modifiedNanos = stats.modifiedNanos ∧
    (decodeFileHeader (encodeFileHeader stats)).accessedNanos = stats.accessedNanos ∧
    (decodeFileHeader (encodeFileHeader stats)).username = stats.username ∧
    (decodeFileHeader (encodeFileHeader stats)).groupname = stats.groupname ∧
    (decodeFileHeader (encodeFileHeader stats)).folder = stats.folder := by
  obtain ⟨fn, sz, md, cr, mo, ac, un, gn, fo⟩ := stats
  cases fo with
  | false =>
    cases md <;> cases cr <;> cases mo <;> cases ac <;> cases un <;> cases gn <;>
      simp [encodeFileHeader, decodeFileHeader, applyField, Header.addString,
        Header.addNumber, Header.addBool, FIELDS.STRINGS.FILENAME,
        FIELDS.STRINGS.MIME_TYPE, FIELDS.STRINGS.POSIX_USERNAME,
        FIELDS.STRINGS.POSIX_GROUPNAME, FIELDS.NUMBERS.SIZE,
        FIELDS.NUMBERS.POSIX_MODE, FIELDS.NUMBERS.CREATED_NANOS,
        FIELDS.NUMBERS.MODIFIED_NANOS, FIELDS.NUMBERS.ACCESSED_NANOS,
        FIELDS.BOOLS.IS_FOLDER]
  | true =>
    have hsz : sz = none := hfolder rfl
    subst hsz
    cases md <;> cases cr <;> cases mo <;> cases ac <;> cases un <;> cases gn <;>
      simp [encodeFileHeader, decodeFileHeader, applyField, Header.addString,
        Header.addNumber, Header.addBool, FIELDS.STRINGS.FILENAME,
        FIELDS.STRINGS.MIME_TYPE, FIELDS.STRINGS.POSIX_USERNAME,
        FIELDS.STRINGS.POSIX_GROUPNAME, FIELDS.NUMBERS.SIZE,
        FIELDS.NUMBERS.POSIX_MODE, FIELDS.NUMBERS.CREATED_NANOS,
        FIELDS.NUMBERS.MODIFIED_NANOS, FIELDS.NUMBERS.ACCESSED_NANOS,
        FIELDS.BOOLS.IS_FOLDER]

/-- Witness for C2: a concrete leaf record round-trips with its size intact. -/
theorem decode_encode_fileHeader_witness :
    (decodeFileHeader (encodeFileHeader { filename := "a", size := some 8, mode := some 420 })).size
      = some 8 :=
  (decode_encode_fileHeader { filename := "a", size := some 8, mode := some 420 }
    (Or.inr rfl) (by simp)).2.1

/-- Claim C5: an encoded file header carries the `IS_FOLDER` boolean field
exactly when the record's folder flag is set, carries a `SIZE` integer
field exactly when the flag is clear (and then its value is the record's
size), and never carries both. -/
theorem encodeFileHeader_folder_size (stats : Stats) :
    (Field.bool FIELDS.BOOLS.IS_FOLDER ∈ (encodeFileHeader stats).fields ↔ stats.folder = true) ∧
    ((∃ v, Field.zint FIELDS.NUMBERS.SIZE v ∈ (encodeFileHeader stats).fields) ↔
      stats.folder = false) ∧
    (stats.folder = false →
      Field.zint FIELDS.NUMBERS.SIZE stats.size ∈ (encodeFileHeader stats).fields) ∧
    ¬(Field.bool FIELDS.BOOLS.IS_FOLDER ∈ (encodeFileHeader stats).fields ∧
      ∃ v, Field.zint FIELDS.NUMBERS.SIZE v ∈ (encodeFileHeader stats).fields) := by
  obtain ⟨fn, sz, md, cr, mo, ac, un, gn, fo⟩ := stats
  cases fo <;> cases md <;> cases cr <;> cases mo <;> cases ac <;> cases un <;> cases gn <;>
    simp [encodeFileHeader, Header.addString, Header.addNumber, Header.addBool,
      FIELDS.STRINGS.FILENAME, FIELDS.STRINGS.POSIX_USERNAME,
      FIELDS.STRINGS.POSIX_GROUPNAME, FIELDS.NUMBERS.SIZE,
      FIELDS.NUMBERS.POSIX_MODE, FIELDS.NUMBERS.CREATED_NANOS,
      FIELDS.NUMBERS.MODIFIED_NANOS, FIELDS.NUMBERS.ACCESSED_NANOS,
      FIELDS.BOOLS.IS_FOLDER]

/-- Witness for C5: a concrete non-folder record gets a `SIZE` field holding
its size. -/
theorem encodeFileHeader_folder_size_witness :
    Field.zint FIELDS.NUMBERS.SIZE (some 3) ∈
      (encodeFileHeader { filename := "x", size := some 3 }).fields :=
  (encodeFileHeader_folder_size { filename := "x", size := some 3 }).2.2.1 rfl

/-- Claim C10: the writer's stat-to-header conversion records only the low
9 permission bits of the posix mode (`mode & 0x1ff`); the setuid (0x800),
setgid (0x400) and sticky (0x200) bits are always dropped. -/
theorem fileHeaderFromFilename_mode_masked (filename : String) (st : RawStats)
    (getpwnam getgrnam : Nat → Option String) :
    (fileHeaderFromFilename filename st getpwnam getgrnam).mode = some (st.mode &&& 0x1ff) ∧
    (fileHeaderFromFilename filename st getpwnam getgrnam).mode = some (st.mode % 512) ∧
    ((fileHeaderFromFilename filename st getpwnam getgrnam).mode.getD 0) < 512 ∧
    ((fileHeaderFromFilename filename st getpwnam getgrnam).mode.getD 0) &&& 0xe00 = 0 := by
  have hmask : st.mode &&& 0x1ff = st.mode % 512 := by
    have h := Nat.and_pow_two_sub_one_eq_mod st.mode 9
    norm_num at h
    exact h
  have hlt : st.mode &&& 0x1ff < 512 :=
    Nat.lt_of_le_of_lt Nat.and_le_right (by norm_num)
  refine ⟨rfl, by simp [fileHeaderFromFilename, hmask], by simpa [fileHeaderFromFilename], ?_⟩
  show (st.mode &&& 0x1ff) &&& 0xe00 = 0
  apply Nat.eq_of_testBit_eq
  intro i
  simp only [Nat.testBit_and, Nat.zero_testBit]
  rcases Nat.lt_or_ge i 9 with hi | hi
  · have h35 : Nat.testBit 0xe00 i = false := by interval_cases i <;> decide
    simp [h35]
  · have h511 : Nat.testBit 0x1ff i = false :=
      Nat.testBit_lt_two_pow (Nat.lt_of_lt_of_le (by norm_num)
        (Nat.pow_le_pow_right (by norm_num) hi))
    simp [h511]

end FourBottle

namespace FourBottle

/-! ## Archive writer model (`archive.coffee`, `ArchiveWriter`)

The filesystem walked by the writer is a tree supplied by the metadata
collaborator: `fs.readdir` yields children in collaborator order, which the
`FTree.dir` constructor records.  The writer's observable behaviour is a
trace of events in completion order: the "filename" notification when a
node's processing starts, the byte content piped into a leaf's bottle, the
completion of `toolkit.qwrite` for one child bottle into its folder bottle,
and `folderBottle.end()`. -/

inductive FTree where
  | file (name : String) (content : List Nat)
  | dir (name : String) (children : List FTree)
deriving Repr

def FTree.name : FTree → String
  | .file n _ => n
  | .dir n _ => n

/-- Writer events, in completion order. -/
inductive WEv where
  | filenameEv (displayName : String)
  | dataEv (content : List Nat)
  | childWritten (name : String)
  | folderEnd (name : String)
deriving DecidableEq, Repr

/-- `foreachSerial` (`archive.coffee` lines 147-151): `list.shift()` removes
the head from the caller's array, then `f` runs on it, and only after `f`'s
promise resolves does the recursion touch the next element.  The result
records the final state of the caller's (mutated) array, the concatenated
events of the completed iterations, and the rejection (if any) that stopped
the loop. -/
def foreachSerial {α : Type} (list : List α) (f : α → Except String (List WEv)) :
    List α × List WEv × Option String :=
  match list with
  | [] => ([], [], none)
  | item :: rest =>
    match f item with
    | .error e => (rest, [], some e)
    | .ok evs =>
      let r := foreachSerial rest f
      (r.1, evs ++ r.2.1, r.2.2)

/-- `ArchiveWriter._processFile` (`archive.coffee` lines 38-51): a leaf
emits its "filename" notification and then pipes its content into the file
bottle; a folder emits its notification (name suffixed with "/") and runs
`_processFolder`, i.e. `foreachSerial` over the children — each child fully
processed and `qwrite`-written into the folder bottle before the next — and
then `folderBottle.end()`. -/
def processFile : FTree → List WEv
  | .file n c => [.filenameEv n, .dataEv c]
  | .dir n cs =>
    .filenameEv (n ++ "/") ::
      ((foreachSerial cs.attach
          (fun x => .ok (processFile x.1 ++ [.childWritten x.1.name]))).2.1
        ++ [.folderEnd n])
termination_by t => sizeOf t
decreasing_by
  have h := List.sizeOf_lt_of_mem x.2
  simp only [FTree.dir.sizeOf_spec]
  omega

/-- `ArchiveWriter._processFolder` (`archive.coffee` lines 53-65) for an
explicit child list (the `files` argument, or the `fs.readdir` result):
`foreachSerial` archives one child at a time — `_processFile` then
`toolkit.qwrite` of the child's bottle into the folder bottle — and the
folder bottle is ended after the loop's promise resolves. -/
def processFolder (name : String) (children : List FTree) : List WEv :=
  (foreachSerial children (fun c => .ok (processFile c ++ [.childWritten c.name]))).2.1
    ++ [.folderEnd name]

/-- `ArchiveWriter._makeFakeFolderHeader` (`archive.coffee` lines 67-76):
`Date.now()` is sampled once (threaded here as the `nowMillis` parameter)
and `nowNanos = Date.now() * 10^6` fills all three timestamps; the mode is
the constant `0x1c0` (octal 700). -/
def makeFakeFolderHeader (name : String) (nowMillis : Nat) : Stats :=
  let nowNanos := nowMillis * 1000000
  { folder := true
    filename := name
    mode := some 0x1c0
    createdNanos := some nowNanos
    modifiedNanos := some nowNanos
    accessedNanos := some nowNanos }

/-- `ArchiveWriter.archiveFiles` (`archive.coffee` lines 32-36): build the
fake folder header, emit the "filename" notification for `folderName + "/"`,
and process the given filenames as the folder's children. -/
def archiveFiles (folderName : String) (filenames : List FTree) (nowMillis : Nat) :
    Stats × List WEv :=
  let header := makeFakeFolderHeader folderName nowMillis
  (header, .filenameEv (folderName ++ "/") :: processFolder folderName filenames)

/-- `foreachSerial` over a function that never rejects consumes the whole
array and concatenates the per-element events in order. -/
theorem foreachSerial_ok {α : Type} (list : List α) (g : α → List WEv) :
    foreachSerial list (fun c => .ok (g c)) = ([], (list.map g).flatten, none) := by
  induction list with
  | nil => rfl
  | cons x rest ih => simp [foreachSerial, ih]

/-- The body of `processFile` on a folder node is exactly `processFolder`
on its children (unfolds the `attach` used for termination). -/
theorem processFile_dir (n : String) (cs : List FTree) :
    processFile (.dir n cs) = .filenameEv (n ++ "/") :: processFolder n cs := by
  simp only [processFile, processFolder, foreachSerial_ok]
  have h : List.map (fun (x : {c // c ∈ cs}) => processFile x.1 ++ [WEv.childWritten x.1.name])
      cs.attach = List.map (fun c => processFile c ++ [WEv.childWritten c.name]) cs :=
    List.attach_map_val cs (fun c => processFile c ++ [WEv.childWritten c.name])
  rw [h]

end FourBottle

namespace FourBottle

/-! ## Claims C3, C7, C9: the archive writer -/

/-- Claim C3: `_processFolder` archives the children strictly one at a time
in the collaborator's listing order — the trace is the concatenation of the
children's complete blocks (each child's events followed by the completed
`qwrite` of its bottle into the folder bottle), in list order, with no
interleaving — and the folder bottle's end marker is the final event,
after the last child completes. -/
theorem processFolder_serial (name : String) (children : List FTree) :
    processFolder name children =
      (children.map (fun c => processFile c ++ [WEv.childWritten c.name])).flatten
        ++ [WEv.folderEnd name] ∧
    (processFolder name children).getLast? = some (.folderEnd name) := by
  constructor
  · simp [processFolder, foreachSerial_ok]
  · simp [processFolder]

/-- Claim C7: `archiveFiles` synthesizes the fake folder header with the
folder flag set, the given name, the fixed permission mode `0x1c0`
(octal 700), and created/modified/accessed timestamps all equal to the one
`Date.now()` sample taken at the call (scaled to nanoseconds). -/
theorem archiveFiles_header (folderName : String) (files : List FTree) (nowMillis : Nat) :
    (archiveFiles folderName files nowMillis).1.folder = true ∧
    (archiveFiles folderName files nowMillis).1.filename = folderName ∧
    (archiveFiles folderName files nowMillis).1.mode = some 0x1c0 ∧
    (archiveFiles folderName files nowMillis).1.createdNanos = some (nowMillis * 1000000) ∧
    (archiveFiles folderName files nowMillis).1.modifiedNanos =
      (archiveFiles folderName files nowMillis).1.createdNanos ∧
    (archiveFiles folderName files nowMillis).1.accessedNanos =
      (archiveFiles folderName files nowMillis).1.createdNanos :=
  ⟨rfl, rfl, rfl, rfl, rfl, rfl⟩

/-- The caller's `filenames` array after `archiveFiles` finishes (or stops
at a rejection): `archiveFiles` hands the very array it was given to
`_processFolder`, whose `foreachSerial` destructively `shift`s it.  `f` is
the per-child archiving step (its promise may reject on filesystem
errors). -/
def archiveFilesFinalArray (filenames : List FTree)
    (f : FTree → Except String (List WEv)) : List FTree × Option String :=
  let r := foreachSerial filenames f
  (r.1, r.2.2)

/-- Claim C9: `archiveFiles` destructively consumes the caller's array —
on full success the array ends up empty, and in every case (including a
mid-list rejection) the array has lost its first `k` elements, i.e. every
element already shifted off for processing is gone. -/
theorem archiveFiles_consumes_filenames (filenames : List FTree)
    (f : FTree → Except String (List WEv)) :
    ((archiveFilesFinalArray filenames f).2 = none →
      (archiveFilesFinalArray filenames f).1 = []) ∧
    ∃ k, k ≤ filenames.length ∧
      (archiveFilesFinalArray filenames f).1 = filenames.drop k := by
  induction filenames with
  | nil => exact ⟨fun _ => rfl, 0, Nat.le_refl 0, rfl⟩
  | cons x rest ih =>
    cases hfx : f x with
    | error e =>
      refine ⟨?_, 1, ?_, ?_⟩
      · intro h
        simp [archiveFilesFinalArray, foreachSerial, hfx] at h
      · simp
      · simp [archiveFilesFinalArray, foreachSerial, hfx]
    | ok evs =>
      obtain ⟨ih1, k, hk, hdrop⟩ := ih
      refine ⟨?_, k + 1, ?_, ?_⟩
      · intro h
        simp only [archiveFilesFinalArray, foreachSerial, hfx] at h ⊢
        exact ih1 h
      · simpa using Nat.succ_le_succ hk
      · simp only [archiveFilesFinalArray, foreachSerial, hfx, List.drop_succ_cons]
        exact hdrop

/-- Witness for C9: archiving one concrete file with a succeeding step
leaves the caller's array empty. -/
theorem archiveFiles_consumes_filenames_witness :
    (archiveFilesFinalArray [FTree.file "a" [1]] (fun _ => Except.ok [])).1 = [] :=
  (archiveFiles_consumes_filenames [FTree.file "a" [1]] (fun _ => Except.ok [])).1 rfl

end FourBottle

namespace FourBottle

/-! ## Archive reader model (`archive.coffee`, `ArchiveReader`)

A parsed bottle: FILE-kind bottles split into leaves (one raw-content
substream) and folder nodes (substreams that are nested bottles, folder
flag set in the header); HASHED/COMPRESSED/ENCRYPTED wrap one inner bottle;
any other kind carries its raw substreams.  `scan` (lines 87-97) emits
"start-bottle", dispatches on `bottle.type` — `TYPE_FILE` (folder flag
distinguishing `_scanFolder` from `_scanFile`), `TYPE_HASHED`,
`TYPE_COMPRESSED`, and an `else` branch running `_skipBottle` — and emits
"end-bottle" when the dispatched promise resolves.  There is no
`TYPE_ENCRYPTED` case in the `switch`, so ENCRYPTED bottles take the
`else`/skip path. -/

inductive Bottle where
  | file (header : FileHeader) (content : List Nat)
  | folder (header : FileHeader) (children : List Bottle)
  | hashed (inner : Bottle) (valid : Bool) (hex : String)
  | compressed (inner : Bottle)
  | encrypted (keymap : List (String × String)) (inner : Bottle)
  | unknown (btype : Nat) (substreams : List (List Nat))

/-- The bottle kind tag (`bottle.type`): FILE covers both leaves and
folder nodes (the folder flag lives in the header). -/
inductive BKind where
  | file
  | hashed
  | compressed
  | encrypted
  | other (tag : Nat)
deriving DecidableEq, Repr

def Bottle.kind : Bottle → BKind
  | .file .. => .file
  | .folder .. => .file
  | .hashed .. => .hashed
  | .compressed .. => .compressed
  | .encrypted .. => .encrypted
  | .unknown t _ => .other t

/-- Reader events in the order the corresponding emissions/completions
happen: "start-bottle", delivery of one leaf substream to `processFile`,
the "hash" emission carrying the resolved (valid?, digest-hex) outcome,
and "end-bottle". -/
inductive REv where
  | startB (kind : BKind)
  | endB (kind : BKind)
  | fileData (content : List Nat)
  | hashRes (valid : Bool) (hex : String)
deriving DecidableEq, Repr

/-- The ReferenceError raised inside `_skipBottle`'s promise chain, see
`skipSubstreams`. -/
def skipBottleError : String := "ReferenceError: skipBottle is not defined"

/-- `_skipBottle` (`archive.coffee` lines 129-134), faithfully: `qread` the
next substream; if there is none, resolve.  Otherwise pipe it into a
`NullSinkStream` (draining it, delivering nothing) and then continue with
`skipBottle(bottle)` — a bare identifier that is defined nowhere in the
module (the method is `_skipBottle`, reached as `@_skipBottle`; top level
defines only `qify` and `foreachSerial`).  The callback therefore throws a
`ReferenceError`, the promise rejects, and the remaining substreams are
never read.  Result: events emitted (none) paired with the rejection, if
any. -/
def skipSubstreams : List (List Nat) → List REv × Option String
  | [] => ([], none)
  | _s :: _rest => ([], some skipBottleError)

mutual

/-- `ArchiveReader.scan` (`archive.coffee` lines 87-97) as a trace paired
with the scan promise's rejection (if any): "start-bottle", then the
dispatched handler's events (`_scanFile` delivers the sole substream to
`processFile`; `_scanFolder` scans each nested bottle in stream order;
`_scanHashed` scans the inner bottle and, once that resolves, emits "hash"
with the resolved outcome; `_scanCompressed` scans the inner bottle;
everything else — including ENCRYPTED, for which the `switch` has no case
— is `_skipBottle`), then "end-bottle" — emitted only when the dispatched
promise resolves; a rejection propagates and suppresses it.  An ENCRYPTED
bottle always has exactly one substream (the wrapped inner bottle's
bytes), written `[[]]` here since skipping never looks at the content. -/
def scanTrace : Bottle → List REv × Option String
  | .file _h c => ([.startB .file, .fileData c, .endB .file], none)
  | .folder _h cs =>
    let r := scanChildren cs
    (.startB .file :: (r.1 ++ if r.2 = none then [.endB .file] else []), r.2)
  | .hashed inner v hx =>
    let r := scanTrace inner
    (.startB .hashed ::
      (r.1 ++ if r.2 = none then [.hashRes v hx, .endB .hashed] else []), r.2)
  | .compressed inner =>
    let r := scanTrace inner
    (.startB .compressed :: (r.1 ++ if r.2 = none then [.endB .compressed] else []), r.2)
  | .encrypted _km _inner =>
    let r := skipSubstreams [[]]
    (.startB .encrypted :: (r.1 ++ if r.2 = none then [.endB .encrypted] else []), r.2)
  | .unknown t ss =>
    let r := skipSubstreams ss
    (.startB (.other t) :: (r.1 ++ if r.2 = none then [.endB (.other t)] else []), r.2)
termination_by b => sizeOf b

/-- `_scanFolder` (`archive.coffee` lines 100-104): scan each nested bottle
in stream order, stopping at the first rejection, which propagates (the
remaining substreams are never read). -/
def scanChildren : List Bottle → List REv × Option String
  | [] => ([], none)
  | b :: rest =>
    let r := scanTrace b
    match r.2 with
    | some e => (r.1, some e)
    | none =>
      let rr := scanChildren rest
      (r.1 ++ rr.1, rr.2)
termination_by l => sizeOf l

end

end FourBottle

namespace FourBottle

/-! ## Claims C1, C4, C6: the archive reader -/

/-- Header of a small leaf bottle used as concrete input. -/
def hdrHi : FileHeader :=
  { filename := some "hi.txt", size := some 2 }

/-- Claim C1, evaluated at the failing input: `scan` on an ENCRYPTED bottle
(keymap with one recipient, wrapping a leaf whose content is "hi") falls
into the `switch`'s `else` branch — `_skipBottle` — so the caller's
`decryptKey` collaborator is never consulted, the inner bottle is never
scanned, and its content is never delivered; after draining the bottle's
one substream the skip callback hits the undefined `skipBottle` identifier,
so the scan rejects with a ReferenceError and "end-bottle" is never
emitted either. -/
theorem scan_skips_encrypted :
    scanTrace (.encrypted [("keybase:bob", "WRAPPEDKEY")] (.file hdrHi [104, 105]))
      = ([.startB .encrypted], some skipBottleError) ∧
    REv.startB .file ∉
      (scanTrace (.encrypted [("keybase:bob", "WRAPPEDKEY")] (.file hdrHi [104, 105]))).1 ∧
    REv.fileData [104, 105] ∉
      (scanTrace (.encrypted [("keybase:bob", "WRAPPEDKEY")] (.file hdrHi [104, 105]))).1 ∧
    REv.endB .encrypted ∉
      (scanTrace (.encrypted [("keybase:bob", "WRAPPEDKEY")] (.file hdrHi [104, 105]))).1 := by
  refine ⟨?_, ?_, ?_, ?_⟩ <;> simp [scanTrace, skipSubstreams, skipBottleError]

/-- Claim C4: `_scanHashed` scans the inner bottle first and only then
surfaces the resolved (valid?, digest-hex) outcome — when the inner scan
resolves, the "hash" event sits at position `|inner trace| + 1`,
immediately after the complete inner trace; when the inner scan rejects
(e.g. it contains a skipped bottle, see `skipSubstreams`) the rejection
propagates and no hash outcome is ever surfaced.  Either way every
`processFile` delivery in the hashed bottle's trace happens strictly
before the position where the hash outcome can appear. -/
theorem scanHashed_after (inner : Bottle) (v : Bool) (hx : String) :
    (scanTrace (.hashed inner v hx)).1
      = .startB .hashed :: ((scanTrace inner).1
          ++ if (scanTrace inner).2 = none then [.hashRes v hx, .endB .hashed] else []) ∧
    (scanTrace (.hashed inner v hx)).2 = (scanTrace inner).2 ∧
    ∀ i d, (scanTrace (.hashed inner v hx)).1[i]? = some (.fileData d) →
      i < (scanTrace inner).1.length + 1 := by
  have e1 : (scanTrace (.hashed inner v hx)).1
      = .startB .hashed :: ((scanTrace inner).1
          ++ if (scanTrace inner).2 = none then [.hashRes v hx, .endB .hashed] else []) := by
    simp [scanTrace]
  have e2 : (scanTrace (.hashed inner v hx)).2 = (scanTrace inner).2 := by
    simp [scanTrace]
  refine ⟨e1, e2, ?_⟩
  intro i d h
  rw [e1] at h
  match i with
  | 0 => simp at h
  | j + 1 =>
    simp only [List.getElem?_cons_succ] at h
    by_contra hcon
    push_neg at hcon
    have hlen : (scanTrace inner).1.length ≤ j := by omega
    rw [List.getElem?_append_right hlen] at h
    by_cases hsc : (scanTrace inner).2 = none
    · simp only [if_pos hsc] at h
      rcases hk : j - (scanTrace inner).1.length with _ | (_ | k) <;>
        rw [hk] at h <;> simp at h
    · simp only [if_neg hsc] at h
      simp at h

/-- Witness for C4: in a concrete hashed bottle wrapping one leaf, the
delivery of the leaf's content (index 2) precedes the hash outcome
(index `|inner| + 1 = 4`). -/
theorem scanHashed_after_witness :
    (2 : Nat) < (scanTrace (Bottle.file hdrHi [7])).1.length + 1 :=
  (scanHashed_after (Bottle.file hdrHi [7]) true "ab").2.2 2 [7] (by
    simp [scanTrace])

/-- Claim C6, evaluated at the failing input: the skip path completes
normally only for a bottle with no remaining substreams; with remaining
substreams (here two, kind 9) `_skipBottle` drains the first, then its
callback calls the undefined identifier `skipBottle` and the scan rejects
with a ReferenceError — nothing is delivered, but "end-bottle" is never
emitted and the remaining substream is never drained, contradicting the
claimed `skip_to_end` semantics. -/
theorem scan_skip_crashes :
    scanTrace (Bottle.unknown 9 []) = ([.startB (.other 9), .endB (.other 9)], none) ∧
    scanTrace (Bottle.unknown 9 [[1], [2, 3]])
      = ([.startB (.other 9)], some skipBottleError) ∧
    (∀ d, REv.fileData d ∉ (scanTrace (Bottle.unknown 9 [[1], [2, 3]])).1) ∧
    REv.endB (.other 9) ∉ (scanTrace (Bottle.unknown 9 [[1], [2, 3]])).1 := by
  refine ⟨?_, ?_, ?_, ?_⟩ <;> simp [scanTrace, skipSubstreams, skipBottleError]

end FourBottle

namespace FourBottle

/-! ## Claim C8: `4unpack.js` `processFile` overwrite policy -/

/-- A flat view of the destination filesystem: path to byte contents. -/
def FS : Type := List (String × List Nat)

def fsLookup (fs : FS) (name : String) : Option (List Nat) :=
  match fs with
  | [] => none
  | (n, c) :: rest => if n = name then some c else fsLookup rest name

/-- Writing a file creates it or replaces its contents. -/
def fsWrite (fs : FS) (name : String) (content : List Nat) : FS :=
  match fs with
  | [] => [(name, content)]
  | (n, c) :: rest =>
    if n = name then (n, content) :: rest else (n, c) :: fsWrite rest name content

/-- Modelled from the spec: the node `fs.open` collaborator (spec section 6
overwrite policy) — flag "wx" is exclusive create and is refused with
EEXIST when the path already exists; flag "w" opens for overwrite. -/
def fsOpen (fs : FS) (name : String) (access : String) : Except String Unit :=
  if access = "wx" ∧ (fsLookup fs name).isSome = true then .error "EEXIST" else .ok ()

/-- Unpack-side events: the reader's "error" emission. -/
inductive UEv where
  | errorEv (code : String)
deriving DecidableEq, Repr

/-- `processFile` (`4unpack.js` lines 140-159): open the destination with
access "w" when the force flag is set, "wx" otherwise; on success the data
stream is piped into the opened file; on failure the error is re-emitted on
the reader (`reader.emit("error", error)`), whose handler (lines 222-228)
reports EEXIST, and the filesystem is untouched. -/
def processFileUnpack (force : Bool) (destName : String) (data : List Nat) (fs : FS) :
    FS × List UEv :=
  let access := if force then "w" else "wx"
  match fsOpen fs destName access with
  | .error e => (fs, [.errorEv e])
  | .ok _ => (fsWrite fs destName data, [])

/-- Looking up the path just written yields the new contents. -/
theorem fsLookup_fsWrite (fs : FS) (name : String) (content : List Nat) :
    fsLookup (fsWrite fs name content) name = some content := by
  induction fs with
  | nil => simp [fsWrite, fsLookup]
  | cons p rest ih =>
    obtain ⟨n, c⟩ := p
    by_cases hn : n = name
    · simp [fsWrite, fsLookup, hn]
    · simp [fsWrite, fsLookup, hn, ih]

/-- Claim C8: when the destination already exists and force is false, the
exclusive "wx" open fails with EEXIST, the error is surfaced on the
reader's error path, and the existing contents are untouched; with force
set the file is opened for overwrite and ends up holding the new data. -/
theorem processFile_overwrite_policy (destName : String) (data old : List Nat) (fs : FS)
    (hexists : fsLookup fs destName = some old) :
    processFileUnpack false destName data fs = (fs, [.errorEv "EEXIST"]) ∧
    fsLookup (processFileUnpack false destName data fs).1 destName = some old ∧
    fsLookup (processFileUnpack true destName data fs).1 destName = some data := by
  have hopen : fsOpen fs destName "wx" = .error "EEXIST" := by
    simp [fsOpen, hexists]
  have herr : processFileUnpack false destName data fs = (fs, [.errorEv "EEXIST"]) := by
    simp [processFileUnpack, hopen]
  have hforce : processFileUnpack true destName data fs = (fsWrite fs destName data, []) := by
    simp [processFileUnpack, fsOpen]
  refine ⟨herr, ?_, ?_⟩
  · rw [herr]
    exact hexists
  · rw [hforce]
    exact fsLookup_fsWrite fs destName data

/-- Witness for C8: concrete destination holding `[1]`; without force the
unpack errors with EEXIST and the old byte survives. -/
theorem processFile_overwrite_policy_witness :
    processFileUnpack false "out/a" [9, 9] [("out/a", [1])]
      = ([("out/a", [1])], [.errorEv "EEXIST"]) :=
  (processFile_overwrite_policy "out/a" [9, 9] [1] [("out/a", [1])] rfl).1

end FourBottle
